import Mathlib

/-!
# Verification of the bass-mongodb persistence adapter

Shallow embedding, in Lean 4, of the parts of the `bass-mongodb` adapter that
the specification's claims are about:

* `src/lib/client.js` — criteria translation (`convertQueryToCriteria`),
  paged/counted queries (`findByQuery`), and the `update` payload preparation;
* `src/lib/mapper.js` — batched relation hydration (`mergeInRelations`,
  `addOneToOneCalls`, `addOneToManyCalls`);
* `src/lib/connection-factory.js` — the connection pool (`parseConfigOptions`,
  the `connectionHash` fingerprint, the `asyncLock`, and `factory`).

JavaScript particulars that the claims hinge on are modelled explicitly:
object identity (for `lodash.uniq` / strict equality on `ObjectID` wrappers),
property-key string coercion (for `docMap[...]` lookups), `Object.create`
prototype chains (for the `update` payload), and the cooperative, run-to-
completion scheduling of callbacks (for the pool's async lock).
-/

namespace BassMongo

/-! ## Part 1 — Client: criteria translation (`convertQueryToCriteria`)

The source (`src/lib/client.js`, both the legacy and the current copy of the
class) classifies each condition value with

```js
typeof conditions[field] === 'object' &&
  conditions[field].constructor.name !== 'ObjectID' &&
  conditions[field].constructor.name !== 'ObjectId'
```

and, for a structured condition, prefixes every key with `$`.  We embed the
relevant JS value domain: strings, numbers, booleans and (non-null) objects
carrying a constructor name and own enumerable fields.  `null` condition
values are outside the domain (the source would throw on
`null.constructor`). -/

/-- Primitive operand values appearing inside a structured condition
(the operands of `greaterThan`/`lessThan`-style operator maps). -/
inductive Prim where
  | pstr (s : String)
  | pnum (n : Int)
  deriving DecidableEq, Repr

/-- A JS condition value: a scalar, or an object with a constructor name and
own enumerable fields.  An opaque identifier is an object whose constructor
name is `ObjectID` (or `ObjectId`). -/
inductive CondVal where
  | vStr (s : String)
  | vNum (n : Int)
  | vBool (b : Bool)
  | vObj (ctorName : String) (fields : List (String × Prim))
  deriving DecidableEq, Repr

/-- `typeof` on the embedded value domain. -/
def jsTypeof : CondVal → String
  | .vStr _ => "string"
  | .vNum _ => "number"
  | .vBool _ => "boolean"
  | .vObj _ _ => "object"

/-- `value.constructor.name` on the embedded value domain. -/
def ctorNameOf : CondVal → String
  | .vStr _ => "String"
  | .vNum _ => "Number"
  | .vBool _ => "Boolean"
  | .vObj c _ => c

/-- A translated criteria entry: either a direct equality against the
unchanged value, or a map of `$`-prefixed store operators. -/
inductive CritVal where
  | eqVal (v : CondVal)
  | ops (m : List (String × Prim))
  deriving DecidableEq, Repr

/-- The classification test of `convertQueryToCriteria`:
`typeof v === 'object' && v.constructor.name !== 'ObjectID' &&
v.constructor.name !== 'ObjectId'`. -/
def isStructuredCondition (v : CondVal) : Bool :=
  jsTypeof v == "object" && ctorNameOf v != "ObjectID" && ctorNameOf v != "ObjectId"

/-- The own enumerable entries iterated by `for (i in conditions[field])`. -/
def ownEntries : CondVal → List (String × Prim)
  | .vObj _ fs => fs
  | _ => []

/-- Translation of a single condition value (the body of the `for (field in
conditions)` loop of `convertQueryToCriteria`). -/
def convertCondition (v : CondVal) : CritVal :=
  if isStructuredCondition v then
    CritVal.ops ((ownEntries v).map (fun kv => ("$" ++ kv.1, kv.2)))
  else
    CritVal.eqVal v

/-- `convertQueryToCriteria` (`src/lib/client.js`): translate every condition
field of a query into store criteria. -/
def convertQueryToCriteria (conditions : List (String × CondVal)) :
    List (String × CritVal) :=
  conditions.map (fun fc => (fc.1, convertCondition fc.2))

/-! ## Part 2 — Client: `findByQuery` count handling

`findByQuery` (current copy, `src/lib/client.js` lines 872–939; the legacy
copy at lines 269–337 has the same count semantics) builds a cursor over the
translated criteria, optionally sorts it, and then: if the query's
count-found-rows flag is set it first issues `cursor.count()` — which in this
driver counts the documents matching the criteria, ignoring skip/limit — and
stores it on `queryResult.totalRows` before `finish` applies skip and limit
and materialises the page; with the flag unset, `finish` runs directly and no
count round trip happens.  Rows are modelled as opaque `Nat`s, the store's
evaluation of the translated criteria as a predicate, and the driver's sort
as an opaque list transformation. -/

/-- The shape of a bass `Query` as consumed by `findByQuery`:
sort presence, skip, limit and the count-found-rows flag. -/
structure QueryShape where
  hasSort : Bool
  skip : Option Nat
  limit : Option Nat
  countFoundRows : Bool
  deriving DecidableEq, Repr

/-- A bass `QueryResult`: the page of rows plus the optional total count. -/
structure MQueryResult where
  data : List Nat
  totalRows : Option Nat
  deriving DecidableEq, Repr

/-- `cursor.skip(k)` (absent means unrestricted). -/
def applySkip : Option Nat → List Nat → List Nat
  | none, xs => xs
  | some k, xs => xs.drop k

/-- `cursor.limit(k)` (absent means unrestricted). -/
def applyLimit : Option Nat → List Nat → List Nat
  | none, xs => xs
  | some k, xs => xs.take k

/-- `findByQuery` (`src/lib/client.js`): returns the query result together
with the number of count round trips issued.  `rows` is the collection,
`crit` the store's evaluation of the translated criteria, `sortFn` the
driver's sort. -/
def findByQuery (rows : List Nat) (crit : Nat → Bool)
    (sortFn : List Nat → List Nat) (q : QueryShape) : MQueryResult × Nat :=
  let matched := rows.filter crit
  let cursor := if q.hasSort then sortFn matched else matched
  let finish : Option Nat → MQueryResult := fun total =>
    { data := applyLimit q.limit (applySkip q.skip cursor), totalRows := total }
  if q.countFoundRows then
    (finish (some matched.length), 1)
  else
    (finish none, 0)

/-! ## Part 3 — Client: `update` payload preparation

Both copies of `update` build the `$set` payload from `data` after the
comment `// need to remove the id from the update data` and
`delete data[idFieldName]`.  The legacy copy (lines 71–106) deletes the id
from the caller's object itself.  The current copy (lines 609–655) first
replaces `data` by `Object.create(data)` — an empty object whose prototype is
the original — so the subsequent `delete` targets a non-existent own property
and removes nothing.  We embed JS objects with own properties and a prototype
link. -/

/-- A JS object: own string-valued properties, optionally with a prototype. -/
inductive JsObj where
  | base (own : List (String × String))
  | withProto (own : List (String × String)) (proto : JsObj)
  deriving DecidableEq, Repr

/-- The own properties of an object. -/
def JsObj.own : JsObj → List (String × String)
  | .base o => o
  | .withProto o _ => o

/-- Property read: own properties first, then the prototype chain. -/
def JsObj.getProp : JsObj → String → Option String
  | .base o, k => o.lookup k
  | .withProto o p, k =>
    match o.lookup k with
    | some v => some v
    | none => p.getProp k

/-- `delete obj[k]`: removes the own property `k` only; a property held by
the prototype is untouched. -/
def JsObj.deleteProp : JsObj → String → JsObj
  | .base o, k => .base (o.filter (fun kv => kv.1 != k))
  | .withProto o p, k => .withProto (o.filter (fun kv => kv.1 != k)) p

/-- `Object.create(obj)`: a fresh object with no own properties whose
prototype is `obj`. -/
def objectCreate (o : JsObj) : JsObj :=
  JsObj.withProto [] o

/-- The `$set` payload prepared by the legacy `update`
(`src/lib/client.js` lines 71–106): `delete data[idFieldName]` on the
caller's object. -/
def updateSetPayloadLegacy (idFieldName : String) (data : JsObj) : JsObj :=
  data.deleteProp idFieldName

/-- The `$set` payload prepared by the current `update`
(`src/lib/client.js` lines 609–655): `data = Object.create(data)` followed by
`delete data[idFieldName]`. -/
def updateSetPayloadModern (idFieldName : String) (data : JsObj) : JsObj :=
  (objectCreate data).deleteProp idFieldName

/-! ## Part 4 — Mapper: batched relation hydration

Embedding of `mergeInRelations` / `addOneToOneCalls` / `addOneToManyCalls`
(`src/lib/mapper.js`).  `mergeInRelations` pushes one closure per declared
relation field (first the one-to-one relations, then the one-to-many ones)
and runs them through `async.parallel`, which reports the first error to the
final callback; the closures mutate the shared `data` array in place.

JS details modelled explicitly:

* raw reference values are `undefined`, strings, or `ObjectID` instances;
  `lodash.uniq` compares them with SameValueZero, i.e. by value for strings
  and by object identity for `ObjectID` instances, so every `ObjectID` value
  carries an instance counter;
* `new ObjectID(v)` (legacy driver): returns `v` itself when `v` is already
  an `ObjectID`; creates a fresh instance from a 24-hex-character string;
  generates a fresh id from `undefined`; throws on other strings (the
  `try/catch` then keeps the raw value);
* `docMap[key]` coerces the key to a string: an `ObjectID` stringifies to its
  hex, `undefined` to `"undefined"`;
* `manager.mapDataToModels` (external bass core) is modelled as the identity
  on already-model-shaped target documents, and `findWhereIn` as the `$in`
  filter over the target collection keyed by the same string coercion.
-/

/-- A raw JS value held in a relation slot: `undefined`, a string id, or an
`ObjectID` instance (`hex` = its stringification, `inst` = object
identity). -/
inductive JVal where
  | undefined
  | str (s : String)
  | oid (hex : String) (inst : Nat)
  deriving DecidableEq, Repr

/-- JS strict equality (SameValueZero, as used by `lodash.uniq`): value
equality for primitives, reference identity for `ObjectID` instances. -/
def jsEq : JVal → JVal → Bool
  | .undefined, .undefined => true
  | .str a, .str b => a == b
  | .oid _ i, .oid _ j => i == j
  | _, _ => false

/-- JS property-key coercion (`String(v)`), used by `docMap[v]` reads and
writes: `ObjectID` stringifies to its hex, `undefined` to `"undefined"`. -/
def toPropertyKey : JVal → String
  | .undefined => "undefined"
  | .str s => s
  | .oid h _ => h

/-- Whether a string is a valid 24-hex-character `ObjectID` literal. -/
def isHex24 (s : String) : Bool :=
  s.length == 24 && s.toList.all fun c =>
    c.isDigit || (c ≥ 'a' && c ≤ 'f') || (c ≥ 'A' && c ≤ 'F')

/-- `new ObjectID(v)` of the legacy driver, threading the fresh-instance
counter: `ObjectID` instances are returned as-is, valid hex strings become a
fresh instance, `undefined` generates a fresh id, any other string throws
(`Except.error`). -/
def newObjectID (v : JVal) (fresh : Nat) : Except Unit (JVal × Nat) :=
  match v with
  | .oid h i => .ok (.oid h i, fresh)
  | .undefined => .ok (.oid ("generated-" ++ toString fresh) fresh, fresh + 1)
  | .str s =>
    if isHex24 s then .ok (.oid s fresh, fresh + 1) else .error ()

/-- `lodash.uniq` with SameValueZero comparison: keeps the first occurrence
of every equivalence class, preserving order.  `seen` accumulates the kept
representatives. -/
def jsUniqAux : List JVal → List JVal → List JVal
  | [], _ => []
  | v :: vs, seen =>
    if seen.any (fun s => jsEq s v) then jsUniqAux vs seen
    else v :: jsUniqAux vs (v :: seen)

/-- `_.uniq(ids)` (`src/lib/mapper.js` lines 316 and 404). -/
def jsUniq (xs : List JVal) : List JVal :=
  jsUniqAux xs []

/-- A hydrated target document after `mapDataToModels`: its model-level id
property plus an opaque payload. -/
structure TDoc where
  id : String
  payload : Nat
  deriving DecidableEq, Repr

/-- The value held by a source document's relation slot: a raw single
reference, a raw ordered id list, a hydrated single reference (`none` =
`undefined`, the dangling case), or a hydrated ordered list. -/
inductive SVal where
  | raw (v : JVal)
  | rawList (vs : List JVal)
  | hyd (d : Option TDoc)
  | hydList (ds : List (Option TDoc))
  deriving DecidableEq, Repr

/-- A source document of the batch being hydrated: a JS object of relation
slots (non-relation fields are irrelevant to the claims and omitted). -/
structure SDoc where
  fields : List (String × SVal)
  deriving DecidableEq, Repr

/-- Read a relation slot (`obj[field]`); a missing slot is `undefined`. -/
def SDoc.getSlot (d : SDoc) (k : String) : Option SVal :=
  d.fields.lookup k

/-- `obj[field]` read as a raw single reference (one-to-one collection
step); a missing or non-raw slot reads as `undefined`. -/
def SDoc.get1 (d : SDoc) (k : String) : JVal :=
  match d.fields.lookup k with
  | some (.raw v) => v
  | _ => .undefined

/-- `obj[field]` read as a raw id list (one-to-many collection step); the
source assumes the slot was populated by `mapPartialRelationsToModel`. -/
def SDoc.getList (d : SDoc) (k : String) : List JVal :=
  match d.fields.lookup k with
  | some (.rawList vs) => vs
  | _ => []

/-- JS property write `obj[field] = v`: replaces the own property in place or
appends it. -/
def SDoc.setSlot (d : SDoc) (k : String) (v : SVal) : SDoc :=
  if d.fields.any (fun kv => kv.1 == k) then
    ⟨d.fields.map fun kv => if kv.1 == k then (k, v) else kv⟩
  else
    ⟨d.fields ++ [(k, v)]⟩

/-- A relation declaration (`relation.field` / `relation.document`). -/
structure Rel where
  field : String
  document : String
  deriving DecidableEq, Repr

/-- Entity metadata as consumed by `mergeInRelations`: the one-to-one and
one-to-many relation declarations, in key order. -/
structure Meta where
  oneToOne : List Rel
  oneToMany : List Rel
  deriving DecidableEq, Repr

/-- The store visible to the relation fetches: target collections of
model-shaped documents keyed by entity name, plus the set of entity names
whose batched fetch fails. -/
structure Store where
  collections : List (String × List TDoc)
  failing : List String
  deriving DecidableEq, Repr

/-- The documents of a target collection (an unknown entity name reads as an
empty collection). -/
def Store.collectionOf (st : Store) (document : String) : List TDoc :=
  (st.collections.lookup document).getD []

/-- One batched `findWhereIn` round trip followed by `mapDataToModels`
(modelled as the identity): returns the target documents whose id matches
some id of the batch under JS property-key coercion, or the store's error. -/
def fetchWhereIn (st : Store) (document : String) (ids : List JVal) :
    Except String (List TDoc) :=
  if st.failing.contains document then
    .error ("fetch failed: " ++ document)
  else
    .ok ((st.collectionOf document).filter fun d =>
      ids.any fun v => toPropertyKey v == d.id)

/-- A `findWhereIn` round trip recorded in the query log: the target entity
and the id batch sent. -/
structure QueryCall where
  document : String
  ids : List JVal
  deriving DecidableEq, Repr

/-- JS object write `docMap[key] = doc` on the lookup table. -/
def docMapSet (m : List (String × TDoc)) (k : String) (v : TDoc) :
    List (String × TDoc) :=
  if m.any (fun kv => kv.1 == k) then
    m.map fun kv => if kv.1 == k then (k, v) else kv
  else
    m ++ [(k, v)]

/-- `documents.forEach(doc => docMap[doc[idPropertyName]] = doc)`. -/
def buildDocMap (docs : List TDoc) : List (String × TDoc) :=
  docs.foldl (fun m d => docMapSet m d.id d) []

/-- One iteration of the id-collection loop of `addOneToOneCalls`
(lines 299–314): `new ObjectID(obj[relation.field])`, keeping the raw value
when the constructor throws, then `ids.push(oid)`. -/
def collectStep (field : String) (acc : List JVal × Nat) (d : SDoc) :
    List JVal × Nat :=
  match newObjectID (d.get1 field) acc.2 with
  | .ok (o, f) => (acc.1 ++ [o], f)
  | .error _ => (acc.1 ++ [d.get1 field], acc.2)

/-- The id-collection loop of `addOneToOneCalls` (lines 297–314): for every
document of the batch, `new ObjectID(obj[relation.field])` with the raw value
kept on throw, threading the fresh-instance counter. -/
def collectOneToOne (field : String) (docs : List SDoc) (fresh : Nat) :
    List JVal × Nat :=
  docs.foldl (collectStep field) ([], fresh)

/-- The id-collection loop of `addOneToManyCalls` (lines 395–401): the
concatenation of every document's raw id list (no `ObjectID` wrapping). -/
def collectOneToMany (field : String) (docs : List SDoc) : List JVal :=
  docs.foldl (fun acc d => acc ++ d.getList field) []

/-- The rewrite loop of `addOneToManyCalls` (lines 434–440): `tmp` built by
pushing `docMap[id]` for each id of the document's original list, in
order. -/
def rewriteList (docMap : List (String × TDoc)) (ids : List JVal) :
    List (Option TDoc) :=
  ids.foldl (fun tmp v => tmp ++ [docMap.lookup (toPropertyKey v)]) []

/-- The running state of one `mergeInRelations` call: the shared mutable
batch, the `ObjectID` fresh-instance counter, the log of issued
`findWhereIn` round trips, and the first error reported to
`async.parallel`. -/
structure MergeState where
  docs : List SDoc
  fresh : Nat
  log : List QueryCall
  firstErr : Option String
  deriving DecidableEq, Repr

/-- One closure pushed by `addOneToOneCalls` (lines 295–366): collect the
ids, `_.uniq` them, and — only when the deduplicated list is non-empty —
issue one `findWhereIn` for the whole batch, build `docMap` keyed by the
target id property, and replace each document's raw value by
`docMap[obj[relation.field]]` (string-coerced key; `undefined` when
absent). -/
def runOneToOneCall (st : Store) (r : Rel) (s : MergeState) : MergeState :=
  let collected := collectOneToOne r.field s.docs s.fresh
  let uids := jsUniq collected.1
  if uids.length > 0 then
    match fetchWhereIn st r.document uids with
    | .error e =>
      { s with fresh := collected.2, log := s.log ++ [⟨r.document, uids⟩],
               firstErr := some (s.firstErr.getD e) }
    | .ok related =>
      let docMap := buildDocMap related
      { s with
        docs := s.docs.map fun d =>
          d.setSlot r.field (.hyd (docMap.lookup (toPropertyKey (d.get1 r.field)))),
        fresh := collected.2,
        log := s.log ++ [⟨r.document, uids⟩] }
  else
    { s with fresh := collected.2 }

/-- One closure pushed by `addOneToManyCalls` (lines 390–452): collect the
concatenated id lists, `_.uniq` them, and — only when non-empty — issue one
`findWhereIn`, build `docMap`, and replace each document's list by the
pushed-in-order list of `docMap[id]` lookups. -/
def runOneToManyCall (st : Store) (r : Rel) (s : MergeState) : MergeState :=
  let uids := jsUniq (collectOneToMany r.field s.docs)
  if uids.length > 0 then
    match fetchWhereIn st r.document uids with
    | .error e =>
      { s with log := s.log ++ [⟨r.document, uids⟩],
               firstErr := some (s.firstErr.getD e) }
    | .ok related =>
      let docMap := buildDocMap related
      { s with
        docs := s.docs.map fun d =>
          d.setSlot r.field (.hydList (rewriteList docMap (d.getList r.field))),
        log := s.log ++ [⟨r.document, uids⟩] }
  else
    s

/-- A queued relation call: `inr false` entries come from
`addOneToOneCalls`, `inr true` ones from `addOneToManyCalls`. -/
def runCall (st : Store) : Bool × Rel → MergeState → MergeState
  | (false, r), s => runOneToOneCall st r s
  | (true, r), s => runOneToManyCall st r s

/-- The call list built by `mergeInRelations`: one closure per one-to-one
relation, then one per one-to-many relation, in declaration order. -/
def callsOf (md : Meta) : List (Bool × Rel) :=
  md.oneToOne.map (fun r => (false, r)) ++ md.oneToMany.map (fun r => (true, r))

deriving instance DecidableEq for Except

/-- The outcome of `mergeInRelations` as observed by the caller: `outcome`
is what the final callback receives (`async.parallel` reports the first
error, with no data argument; otherwise the batch), while `finalDocs` is the
state of the shared, in-place-mutated batch after every closure has run, and
`log` the issued round trips. -/
structure MergeResult where
  outcome : Except String (List SDoc)
  finalDocs : List SDoc
  log : List QueryCall
  deriving DecidableEq, Repr

/-- `mergeInRelations` (`src/lib/mapper.js` lines 247–269).  The guard at
line 249 compares the one-to-many relations object itself to `0`
(`metadata.relations['one-to-many'] === 0`), which is never true of an
object, so the early return never fires and the call list (possibly empty)
always goes through `async.parallel`; each closure mutates the shared batch
in place, and the final callback receives the first error or the batch. -/
def mergeInRelations (st : Store) (md : Meta) (docs : List SDoc) :
    MergeResult :=
  let final := (callsOf md).foldl (fun s c => runCall st c s)
    ⟨docs, 0, [], none⟩
  { outcome :=
      match final.firstErr with
      | some e => .error e
      | none => .ok final.docs,
    finalDocs := final.docs,
    log := final.log }

/-! ## Part 5 — Connection factory: pool fingerprint and async lock

Embedding of `src/lib/connection-factory.js`.  Option values are modelled as
strings; the JS `!isNaN(v)` / `parseInt(v, 10)` canonicalisation is embedded
for the decimal-digit strings configurations actually use.  The fingerprint is
the source's

```js
var connectionHash = config.host + ':' + config.part + poolName + serverOptions.hash;
```

note `config.part` (not `config.port`) and `serverOptions.hash` only.
Concurrency is the source's own cooperative model: callbacks run to
completion, `setImmediate` (used by `asyncLock.waitAsync`) and the
`open` callback append to the task queue. -/

/-- A connection configuration as read by `factory`: the properties the
source touches.  `part` models the (normally absent) `config.part` property
read by the fingerprint computation. -/
structure MongoConfig where
  host : String
  port : String
  database : String
  part : Option String := none
  poolName : Option String := none
  poolSize : Option String := none
  autoReconnect : Option String := none
  readPreference : Option String := none
  slaveOk : Option String := none
  ha : Option String := none
  w : Option String := none
  deriving DecidableEq, Repr

/-- `config[key]` for the option keys used by `parseConfigOptions`. -/
def MongoConfig.getKey (c : MongoConfig) : String → Option String
  | "poolSize" => c.poolSize
  | "auto-reconnect" => c.autoReconnect
  | "readPreference" => c.readPreference
  | "slaveOk" => c.slaveOk
  | "ha" => c.ha
  | "w" => c.w
  | _ => none

/-- `serverOptionKeys` (`src/lib/connection-factory.js` line 17). -/
def serverOptionKeys : List String := ["poolSize", "auto-reconnect"]

/-- `clientOptionKeys` (`src/lib/connection-factory.js` line 19). -/
def clientOptionKeys : List String := ["readPreference", "slaveOk", "ha", "w"]

/-- The JS `!isNaN(v)` test, restricted to the embedded value domain of
decimal-digit strings versus other plain strings. -/
def jsIsNumeric (s : String) : Bool :=
  s ≠ "" && s.toList.all Char.isDigit

/-- `parseInt(s, 10)` on a decimal-digit string. -/
def jsParseInt (s : String) : Nat :=
  s.toList.foldl (fun n c => n * 10 + (c.toNat - '0'.toNat)) 0

/-- The option value as it appears in the option hash: numeric strings are
`parseInt`-canonicalised, other strings kept verbatim. -/
def optionRepr (s : String) : String :=
  if jsIsNumeric s then toString (jsParseInt s) else s

/-- `parseConfigOptions(config, keys)` (lines 33–63): walks `keys` in the
given (unsorted) order and accumulates `':' + key + ':' + value` for every
present key.  Only the hash component matters to the claims. -/
def parseConfigOptions (c : MongoConfig) (keys : List String) : String :=
  keys.foldl
    (fun hash k =>
      match c.getKey k with
      | some v => hash ++ ":" ++ k ++ ":" ++ optionRepr v
      | none => hash)
    ""

/-- The `localhost` → `127.0.0.1` normalisation applied to `config.host`
(lines 141–144). -/
def normalizeHost (c : MongoConfig) : MongoConfig :=
  if c.host == "localhost" then { c with host := "127.0.0.1" } else c

/-- JS string coercion of a possibly-undefined property, as it happens when
`config.part` is concatenated into the fingerprint. -/
def jsStringOfOpt : Option String → String
  | none => "undefined"
  | some s => s

/-- The pool-name fragment (lines 147–151): `':' + poolName + ':'` when the
config names a pool, `''` otherwise. -/
def poolNameFragment (c : MongoConfig) : String :=
  match c.poolName with
  | some p => ":" ++ p ++ ":"
  | none => ""

/-- `connectionHash` (line 153):
`config.host + ':' + config.part + poolName + serverOptions.hash`, computed
after host normalisation.  The port enters only through the (normally
absent) `part` property, and only the server option keys contribute. -/
def connectionHash (c : MongoConfig) : String :=
  let c := normalizeHost c
  c.host ++ ":" ++ jsStringOfOpt c.part ++ poolNameFragment c
    ++ parseConfigOptions c serverOptionKeys

/-- The outcome an `acquire()`/`factory()` caller receives through its
callback: a connection handle (`new Connection(client.db(config.database))`,
identified by the underlying client instance and database name) or an
error. -/
inductive POutcome where
  | ok (clientId : Nat) (database : String)
  | err (msg : String)
  deriving DecidableEq, Repr

/-- A queued cooperative task: a caller entering `factory`, the `open`
callback of the client a caller created, or one `waitAsync` retry
(`setImmediate`) holding the client instance captured at entry. -/
inductive PTask where
  | start (caller : Nat)
  | openCb (caller : Nat) (clientId : Nat)
  | waitCheck (caller : Nat) (clientId : Nat)
  deriving DecidableEq, Repr

/-- The process-wide pool state: the `mongoClients` table, the lock's
`locked` list, the next client instance id, the count of `open` calls
issued, the outcomes delivered so far, and the task queue. -/
structure PoolState where
  mongoClients : List (String × Nat)
  locked : List String
  nextClient : Nat
  openCalls : Nat
  outcomes : List (Nat × POutcome)
  queue : List PTask
  deriving DecidableEq, Repr

/-- `asyncLock.beginAsync` (lines 105–115): push the hash unless present. -/
def beginAsync (locked : List String) (h : String) : List String :=
  if locked.contains h then locked else locked ++ [h]

/-- `asyncLock.endAsync` (lines 117–127): splice out the first occurrence. -/
def endAsync (locked : List String) (h : String) : List String :=
  locked.erase h

/-- One cooperative scheduling step of `factory` (lines 135–190), with every
caller using configuration `c` and the underlying `open` succeeding iff
`openFails = false`:

* `start`: no entry in `mongoClients` → create the client, `beginAsync`, and
  issue `open` (its callback joins the queue); an entry present and locked →
  `waitAsync` re-schedules via `setImmediate`; present and unlocked →
  `waitAsync` invokes `connectToDb` synchronously on the captured client.
* `openCb`: `endAsync`, then either deliver the error to the opening caller
  (the entry is not removed) or `connectToDb` on the opened client.
* `waitCheck`: still locked → re-schedule; unlocked → `connectToDb` on the
  captured client. -/
def pstep (c : MongoConfig) (openFails : Bool) (s : PoolState) : PoolState :=
  match s.queue with
  | [] => s
  | t :: rest =>
    match t with
    | .start k =>
      let h := connectionHash c
      match s.mongoClients.lookup h with
      | none =>
        { s with
          mongoClients := s.mongoClients ++ [(h, s.nextClient)],
          locked := beginAsync s.locked h,
          nextClient := s.nextClient + 1,
          openCalls := s.openCalls + 1,
          queue := rest ++ [.openCb k s.nextClient] }
      | some cid =>
        if s.locked.contains h then
          { s with queue := rest ++ [.waitCheck k cid] }
        else
          { s with
            outcomes := s.outcomes ++ [(k, .ok cid c.database)],
            queue := rest }
    | .openCb k cid =>
      let h := connectionHash c
      let locked := endAsync s.locked h
      if openFails then
        { s with locked := locked,
                 outcomes := s.outcomes ++ [(k, .err "open failed")],
                 queue := rest }
      else
        { s with locked := locked,
                 outcomes := s.outcomes ++ [(k, .ok cid c.database)],
                 queue := rest }
    | .waitCheck k cid =>
      let h := connectionHash c
      if s.locked.contains h then
        { s with queue := rest ++ [.waitCheck k cid] }
      else
        { s with
          outcomes := s.outcomes ++ [(k, .ok cid c.database)],
          queue := rest }

/-- Run the cooperative scheduler for `fuel` steps (a step on an empty queue
is the identity). -/
def runPool (c : MongoConfig) (openFails : Bool) : Nat → PoolState → PoolState
  | 0, s => s
  | n + 1, s => runPool c openFails n (pstep c openFails s)

/-- The initial pool state for callers `1 .. n` entering `factory`
back-to-back (each call issued without awaiting the previous one). -/
def initialPool (callers : List Nat) : PoolState :=
  ⟨[], [], 0, 0, [], callers.map .start⟩

/-! ## Part 6 — Derived definitions and concrete scenario instances -/

/-- The target documents fetched by the single one-to-many round trip for
relation `r` over batch `docs` (empty on store failure). -/
def oneToManyFetched (st : Store) (r : Rel) (docs : List SDoc) : List TDoc :=
  ((fetchWhereIn st r.document (jsUniq (collectOneToMany r.field docs))).toOption).getD []

/-- The per-field lookup table the one-to-many rewrite consults: one table
for the whole batch, shared by every source document. -/
def oneToManyDocMap (st : Store) (r : Rel) (docs : List SDoc) :
    List (String × TDoc) :=
  buildDocMap (oneToManyFetched st r docs)

/-- The target documents fetched by the single one-to-one round trip for
relation `r` over batch `docs` (empty on store failure). -/
def oneToOneFetched (st : Store) (r : Rel) (docs : List SDoc) : List TDoc :=
  ((fetchWhereIn st r.document (jsUniq (collectOneToOne r.field docs 0).1)).toOption).getD []

/-- The per-field lookup table the one-to-one rewrite consults: one table
for the whole batch, shared by every source document. -/
def oneToOneDocMap (st : Store) (r : Rel) (docs : List SDoc) :
    List (String × TDoc) :=
  buildDocMap (oneToOneFetched st r docs)

/-- A representative configuration (the integration spec's connection
settings). -/
def cfgC : MongoConfig := { host := "localhost", port := "27017", database := "d" }

/-- `cfgC` with a different port. -/
def cfgDifferentPort : MongoConfig := { cfgC with port := "27018" }

/-- `cfgC` with a different `w` (client) option. -/
def cfgDifferentW : MongoConfig := { cfgC with w := some "1" }

/-- `cfgC` with a different host. -/
def cfgDifferentHost : MongoConfig := { cfgC with host := "db.example.com" }

/-- `cfgC` with a pool name. -/
def cfgDifferentPool : MongoConfig := { cfgC with poolName := some "p" }

/-- `cfgC` with a `poolSize` (server) option. -/
def cfgDifferentPoolSize : MongoConfig := { cfgC with poolSize := some "5" }

/-- Two concurrent `factory` callers with `cfgC`, underlying open failing,
run to completion. -/
def poolTwoFail : PoolState := runPool cfgC true 10 (initialPool [1, 2])

/-- A third caller with the same configuration entering after the failed
initialization completed. -/
def poolLater : PoolState :=
  runPool cfgC true 10 { poolTwoFail with queue := [PTask.start 3] }

/-- A 24-hex-character foreign id shared by two source documents. -/
def hC1 : String := "aaaaaaaaaaaaaaaaaaaaaaaa"

/-- Two Order documents referencing the same Customer id. -/
def docsC1 : List SDoc :=
  [⟨[("customer", .raw (.str hC1))]⟩, ⟨[("customer", .raw (.str hC1))]⟩]

/-- A store holding that Customer. -/
def stC1 : Store := ⟨[("Customer", [⟨hC1, 5⟩])], []⟩

/-- Metadata with the single one-to-one `customer` relation. -/
def mdC1 : Meta := ⟨[⟨"customer", "Customer"⟩], []⟩

/-- A store with two Item documents for the one-to-many scenarios. -/
def stM : Store := ⟨[("Item", [⟨"i1", 1⟩, ⟨"i2", 2⟩])], []⟩

/-- The one-to-many `items` relation. -/
def relM : Rel := ⟨"items", "Item"⟩

/-- One source document whose ordered id list references `i2`, a dangling
`i9`, then `i1`. -/
def docsM : List SDoc := [⟨[("items", .rawList [.str "i2", .str "i9", .str "i1"])]⟩]

/-- A store whose `A` collection is live and whose `B` fetch fails. -/
def stC6 : Store := ⟨[("A", [⟨"a1", 1⟩])], ["B"]⟩

/-- Metadata with two one-to-one relations, `a` before `b`. -/
def mdC6 : Meta := ⟨[⟨"a", "A"⟩, ⟨"b", "B"⟩], []⟩

/-- One source document referencing both relations. -/
def docsC6 : List SDoc := [⟨[("a", .raw (.str "a1")), ("b", .raw (.str "b1"))]⟩]

/-- A store with one Customer `c1` for the dangling one-to-one scenario. -/
def stD : Store := ⟨[("Customer", [⟨"c1", 1⟩])], []⟩

/-- The one-to-one `customer` relation. -/
def relD : Rel := ⟨"customer", "Customer"⟩

/-- One Order referencing the absent Customer id `C9`. -/
def docsD : List SDoc := [⟨[("customer", .raw (.str "C9"))]⟩]

/-- An update payload carrying the identifier and one ordinary field. -/
def d10 : JsObj := .base [("_id", "507f1f77bcf86cd799439011"), ("name", "bob")]

/-! ## Theorems -/

/-! ### Helper lemmas on `jsUniq`, lookup tables and the merge fold -/

theorem jsUniqAux_not_seen :
    ∀ (xs seen : List JVal) (w : JVal), w ∈ jsUniqAux xs seen →
      ∀ s ∈ seen, jsEq s w = false := by
  intro xs
  induction xs with
  | nil => intro seen w hw; simp [jsUniqAux] at hw
  | cons v vs ih =>
    intro seen w hw s hs
    by_cases h : seen.any (fun s => jsEq s v) = true
    · rw [jsUniqAux, if_pos h] at hw
      exact ih seen w hw s hs
    · rw [jsUniqAux, if_neg h] at hw
      rcases List.mem_cons.mp hw with rfl | hw2
      · have h2 : ∀ t ∈ seen, ¬ jsEq t w = true := by
          simpa [List.any_eq_true] using h
        simpa using h2 s hs
      · exact ih (v :: seen) w hw2 s (List.mem_cons_of_mem _ hs)

theorem jsUniqAux_pairwise :
    ∀ (xs seen : List JVal),
      List.Pairwise (fun a b => jsEq a b = false) (jsUniqAux xs seen) := by
  intro xs
  induction xs with
  | nil => intro seen; simp [jsUniqAux]
  | cons v vs ih =>
    intro seen
    by_cases h : seen.any (fun s => jsEq s v) = true
    · rw [jsUniqAux, if_pos h]; exact ih seen
    · rw [jsUniqAux, if_neg h]
      refine List.Pairwise.cons ?_ (ih (v :: seen))
      intro w hw
      exact jsUniqAux_not_seen vs (v :: seen) w hw v (List.mem_cons_self v seen)

theorem jsUniq_pairwise (xs : List JVal) :
    List.Pairwise (fun a b => jsEq a b = false) (jsUniq xs) :=
  jsUniqAux_pairwise xs []

theorem jsUniq_ne_nil (xs : List JVal) (h : xs ≠ []) : jsUniq xs ≠ [] := by
  cases xs with
  | nil => exact absurd rfl h
  | cons v vs => simp [jsUniq, jsUniqAux]

theorem lookup_map_replace {β : Type} (m : List (String × β)) (k : String) (v : β) :
    ∀ (_ : m.any (fun kv => kv.1 == k) = true),
      (m.map fun kv => if kv.1 == k then (k, v) else kv).lookup k = some v := by
  induction m with
  | nil => intro h; simp at h
  | cons kv m ih =>
    obtain ⟨a, b⟩ := kv
    intro h
    by_cases hk : a = k
    · subst hk
      simp [List.lookup_cons]
    · have hbeq : (a == k) = false := beq_eq_false_iff_ne.mpr hk
      have hbeq2 : (k == a) = false := beq_eq_false_iff_ne.mpr fun e => hk e.symm
      rw [List.any_cons] at h
      simp only [hbeq, Bool.false_or] at h
      simpa [List.lookup_cons, hbeq, hbeq2, hk] using ih h

theorem lookup_map_replace_ne {β : Type} (m : List (String × β)) (k k2 : String)
    (v : β) (h : k ≠ k2) :
    (m.map fun kv => if kv.1 == k2 then (k2, v) else kv).lookup k = m.lookup k := by
  induction m with
  | nil => simp
  | cons kv m ih =>
    obtain ⟨a, b⟩ := kv
    rw [List.map_cons]
    by_cases hk : a = k2
    · subst hk
      have h2 : (k == a) = false := beq_eq_false_iff_ne.mpr h
      simpa [List.lookup_cons, h2] using ih
    · have hbeq : (a == k2) = false := beq_eq_false_iff_ne.mpr hk
      by_cases hkk : k = a
      · subst hkk
        simp [List.lookup_cons, hbeq]
      · have h3 : (k == a) = false := beq_eq_false_iff_ne.mpr hkk
        simpa [List.lookup_cons, hbeq, h3, hk] using ih

theorem lookup_append_eq {β : Type} (l1 l2 : List (String × β)) (k : String) :
    (l1 ++ l2).lookup k =
      match l1.lookup k with
      | some v => some v
      | none => l2.lookup k := by
  induction l1 with
  | nil => simp
  | cons kv l1 ih =>
    obtain ⟨a, b⟩ := kv
    rw [List.cons_append, List.lookup_cons, List.lookup_cons]
    by_cases hk : k = a
    · subst hk
      simp
    · have hbeq : (k == a) = false := beq_eq_false_iff_ne.mpr hk
      simp only [hbeq]
      exact ih

theorem lookup_none_of_any_false {β : Type} (m : List (String × β)) (k : String)
    (h : m.any (fun kv => kv.1 == k) = false) : m.lookup k = none := by
  induction m with
  | nil => simp
  | cons kv m ih =>
    obtain ⟨a, b⟩ := kv
    rw [List.any_cons] at h
    rcases Bool.or_eq_false_iff.mp h with ⟨h1, h2⟩
    have hk : (k == a) = false := by
      simp only [beq_eq_false_iff_ne] at h1 ⊢
      exact fun e => h1 e.symm
    rw [List.lookup_cons]
    simp only [hk]
    exact ih h2

theorem lookup_docMapSet_self (m : List (String × TDoc)) (k : String) (v : TDoc) :
    (docMapSet m k v).lookup k = some v := by
  by_cases h : m.any (fun kv => kv.1 == k) = true
  · rw [docMapSet, if_pos h]
    exact lookup_map_replace m k v h
  · rw [docMapSet, if_neg h]
    rw [Bool.not_eq_true] at h
    rw [lookup_append_eq, lookup_none_of_any_false m k h]
    exact List.lookup_cons_self

theorem lookup_docMapSet_ne (m : List (String × TDoc)) (k k2 : String) (v : TDoc)
    (h : k ≠ k2) : (docMapSet m k2 v).lookup k = m.lookup k := by
  by_cases hm : m.any (fun kv => kv.1 == k2) = true
  · rw [docMapSet, if_pos hm]
    exact lookup_map_replace_ne m k k2 v h
  · rw [docMapSet, if_neg hm]
    rw [lookup_append_eq]
    cases hl : m.lookup k with
    | some v2 => simp
    | none =>
      rw [List.lookup_cons]
      have : (k == k2) = false := by simp [h]
      simp only [this, List.lookup_nil]

theorem buildDocMap_lookup_none_aux (k : String) :
    ∀ (ds : List TDoc) (m : List (String × TDoc)),
      (∀ d ∈ ds, (d.id == k) = false) → m.lookup k = none →
      (ds.foldl (fun m d => docMapSet m d.id d) m).lookup k = none := by
  intro ds
  induction ds with
  | nil => intro m _ hm; simpa using hm
  | cons d ds ih =>
    intro m h hm
    have hd : (d.id == k) = false := h d (List.mem_cons_self d ds)
    have hne : k ≠ d.id := by
      intro e; rw [e] at hd; simp at hd
    rw [List.foldl_cons]
    exact ih (docMapSet m d.id d)
      (fun d2 hd2 => h d2 (List.mem_cons_of_mem _ hd2))
      (by rw [lookup_docMapSet_ne m k d.id d hne]; exact hm)

theorem buildDocMap_lookup_none (ds : List TDoc) (k : String)
    (h : ∀ d ∈ ds, (d.id == k) = false) : (buildDocMap ds).lookup k = none :=
  buildDocMap_lookup_none_aux k ds [] h (by simp [List.lookup])

theorem getSlot_setSlot_self (d : SDoc) (k : String) (v : SVal) :
    (d.setSlot k v).getSlot k = some v := by
  rw [SDoc.setSlot]
  by_cases h : d.fields.any (fun kv => kv.1 == k) = true
  · rw [if_pos h]
    exact lookup_map_replace d.fields k v h
  · rw [if_neg h]
    show (d.fields ++ [(k, v)]).lookup k = some v
    rw [Bool.not_eq_true] at h
    rw [lookup_append_eq, lookup_none_of_any_false d.fields k h]
    exact List.lookup_cons_self

theorem foldl_push_eq_map {α β : Type} (f : α → β) :
    ∀ (xs : List α) (acc : List β),
      xs.foldl (fun t v => t ++ [f v]) acc = acc ++ xs.map f := by
  intro xs
  induction xs with
  | nil => simp
  | cons v vs ih => intro acc; simp [ih]

theorem rewriteList_eq_map (docMap : List (String × TDoc)) (ids : List JVal) :
    rewriteList docMap ids = ids.map fun v => docMap.lookup (toPropertyKey v) := by
  simpa [rewriteList] using
    foldl_push_eq_map (fun v => docMap.lookup (toPropertyKey v)) ids []

theorem foldl_append_eq_join {α β : Type} (f : α → List β) :
    ∀ (xs : List α) (acc : List β),
      xs.foldl (fun a d => a ++ f d) acc = acc ++ (xs.map f).flatten := by
  intro xs
  induction xs with
  | nil => simp
  | cons v vs ih => intro acc; simp [ih]

theorem collectOneToMany_eq (field : String) (docs : List SDoc) :
    collectOneToMany field docs = (docs.map fun d => d.getList field).flatten := by
  simpa [collectOneToMany] using
    foldl_append_eq_join (fun d => SDoc.getList d field) docs []

theorem collectStep_fst_length (field : String) :
    ∀ (docs : List SDoc) (acc : List JVal × Nat),
      (docs.foldl (collectStep field) acc).1.length = acc.1.length + docs.length := by
  intro docs
  induction docs with
  | nil => simp
  | cons d ds ih =>
    intro acc
    rw [List.foldl_cons, ih]
    have : (collectStep field acc d).1.length = acc.1.length + 1 := by
      rw [collectStep]
      rcases h : newObjectID (d.get1 field) acc.2 with e | ⟨o, f⟩ <;> simp
    rw [this]
    simp [Nat.add_assoc, Nat.add_comm 1 ds.length]

theorem collectOneToOne_fst_length (field : String) (docs : List SDoc) (fresh : Nat) :
    (collectOneToOne field docs fresh).1.length = docs.length := by
  simpa [collectOneToOne] using collectStep_fst_length field docs ([], fresh)

theorem fetchWhereIn_ok (st : Store) (document : String) (ids : List JVal)
    (hok : st.failing.contains document = false) :
    fetchWhereIn st document ids =
      .ok ((st.collectionOf document).filter fun d =>
        ids.any fun v => toPropertyKey v == d.id) := by
  rw [fetchWhereIn, if_neg (by rw [hok]; simp)]

theorem fetchWhereIn_err (st : Store) (document : String) (ids : List JVal)
    (hbad : st.failing.contains document = true) :
    fetchWhereIn st document ids = .error ("fetch failed: " ++ document) := by
  rw [fetchWhereIn, if_pos hbad]

theorem runOneToManyCall_ok (st : Store) (r : Rel) (s : MergeState)
    (hNe : jsUniq (collectOneToMany r.field s.docs) ≠ [])
    (hok : st.failing.contains r.document = false) :
    runOneToManyCall st r s =
      { s with
        docs := s.docs.map fun d => d.setSlot r.field (.hydList (rewriteList
          (buildDocMap ((st.collectionOf r.document).filter fun d2 =>
            (jsUniq (collectOneToMany r.field s.docs)).any fun v =>
              toPropertyKey v == d2.id))
          (d.getList r.field))),
        log := s.log ++ [⟨r.document, jsUniq (collectOneToMany r.field s.docs)⟩] } := by
  simp only [runOneToManyCall]
  rw [if_pos (List.length_pos.mpr hNe), fetchWhereIn_ok st r.document _ hok]

theorem runOneToOneCall_ok (st : Store) (r : Rel) (s : MergeState)
    (hNe : jsUniq (collectOneToOne r.field s.docs s.fresh).1 ≠ [])
    (hok : st.failing.contains r.document = false) :
    runOneToOneCall st r s =
      { s with
        docs := s.docs.map fun d => d.setSlot r.field (.hyd
          ((buildDocMap ((st.collectionOf r.document).filter fun d2 =>
            (jsUniq (collectOneToOne r.field s.docs s.fresh).1).any fun v =>
              toPropertyKey v == d2.id)).lookup
            (toPropertyKey (d.get1 r.field)))),
        fresh := (collectOneToOne r.field s.docs s.fresh).2,
        log := s.log ++ [⟨r.document, jsUniq (collectOneToOne r.field s.docs s.fresh).1⟩] } := by
  simp only [runOneToOneCall]
  rw [if_pos (List.length_pos.mpr hNe), fetchWhereIn_ok st r.document _ hok]

theorem collectOneToOne_fst_ne_nil (field : String) (docs : List SDoc) (fresh : Nat)
    (hne : docs ≠ []) : (collectOneToOne field docs fresh).1 ≠ [] := by
  apply List.length_pos.mp
  rw [collectOneToOne_fst_length]
  exact List.length_pos.mpr hne

theorem runOneToOneCall_err (st : Store) (r : Rel) (s : MergeState)
    (hbad : st.failing.contains r.document = true) (hne : s.docs ≠ []) :
    (runOneToOneCall st r s).firstErr
      = some (s.firstErr.getD ("fetch failed: " ++ r.document)) ∧
    (runOneToOneCall st r s).docs = s.docs := by
  have hlen : (jsUniq (collectOneToOne r.field s.docs s.fresh).1).length > 0 :=
    List.length_pos.mpr (jsUniq_ne_nil _ (collectOneToOne_fst_ne_nil r.field s.docs s.fresh hne))
  simp only [runOneToOneCall]
  rw [if_pos hlen, fetchWhereIn_err st r.document _ hbad]
  exact ⟨rfl, rfl⟩

theorem runOneToOneCall_docs_length (st : Store) (r : Rel) (s : MergeState) :
    (runOneToOneCall st r s).docs.length = s.docs.length := by
  simp only [runOneToOneCall]
  by_cases hlen : (jsUniq (collectOneToOne r.field s.docs s.fresh).1).length > 0
  · rw [if_pos hlen]
    cases hf : fetchWhereIn st r.document
        (jsUniq (collectOneToOne r.field s.docs s.fresh).1) with
    | error e => simp
    | ok related => simp
  · rw [if_neg hlen]

theorem runOneToOneCall_firstErr_ok (st : Store) (r : Rel) (s : MergeState)
    (hok : st.failing.contains r.document = false) :
    (runOneToOneCall st r s).firstErr = s.firstErr := by
  simp only [runOneToOneCall]
  by_cases hlen : (jsUniq (collectOneToOne r.field s.docs s.fresh).1).length > 0
  · rw [if_pos hlen, fetchWhereIn_ok st r.document _ hok]
  · rw [if_neg hlen]

theorem mergeInRelations_single_many (st : Store) (r : Rel) (docs : List SDoc) :
    mergeInRelations st ⟨[], [r]⟩ docs =
      { outcome :=
          match (runOneToManyCall st r ⟨docs, 0, [], none⟩).firstErr with
          | some e => .error e
          | none => .ok (runOneToManyCall st r ⟨docs, 0, [], none⟩).docs,
        finalDocs := (runOneToManyCall st r ⟨docs, 0, [], none⟩).docs,
        log := (runOneToManyCall st r ⟨docs, 0, [], none⟩).log } := rfl

theorem mergeInRelations_single_one (st : Store) (r : Rel) (docs : List SDoc) :
    mergeInRelations st ⟨[r], []⟩ docs =
      { outcome :=
          match (runOneToOneCall st r ⟨docs, 0, [], none⟩).firstErr with
          | some e => .error e
          | none => .ok (runOneToOneCall st r ⟨docs, 0, [], none⟩).docs,
        finalDocs := (runOneToOneCall st r ⟨docs, 0, [], none⟩).docs,
        log := (runOneToOneCall st r ⟨docs, 0, [], none⟩).log } := rfl

theorem mergeInRelations_two_one (st : Store) (r1 r2 : Rel) (docs : List SDoc) :
    mergeInRelations st ⟨[r1, r2], []⟩ docs =
      { outcome :=
          match (runOneToOneCall st r2 (runOneToOneCall st r1 ⟨docs, 0, [], none⟩)).firstErr with
          | some e => .error e
          | none => .ok (runOneToOneCall st r2 (runOneToOneCall st r1 ⟨docs, 0, [], none⟩)).docs,
        finalDocs := (runOneToOneCall st r2 (runOneToOneCall st r1 ⟨docs, 0, [], none⟩)).docs,
        log := (runOneToOneCall st r2 (runOneToOneCall st r1 ⟨docs, 0, [], none⟩)).log } := rfl

theorem oneToManyFetched_ok (st : Store) (r : Rel) (docs : List SDoc)
    (hok : st.failing.contains r.document = false) :
    oneToManyFetched st r docs =
      (st.collectionOf r.document).filter fun d2 =>
        (jsUniq (collectOneToMany r.field docs)).any fun v =>
          toPropertyKey v == d2.id := by
  rw [oneToManyFetched, fetchWhereIn_ok st r.document _ hok]
  rfl

theorem runCall_log_cases (st : Store) (c : Bool × Rel) (s : MergeState) :
    ((runCall st c s).log = s.log ∧ (runCall st c s).docs = s.docs ∧
      (runCall st c s).firstErr = s.firstErr) ∨
    ∃ doc ids0, (runCall st c s).log = s.log ++ [⟨doc, jsUniq ids0⟩] := by
  obtain ⟨b, r⟩ := c
  cases b
  · simp only [runCall, runOneToOneCall]
    by_cases hlen : (jsUniq (collectOneToOne r.field s.docs s.fresh).1).length > 0
    · rw [if_pos hlen]
      cases hf : fetchWhereIn st r.document
          (jsUniq (collectOneToOne r.field s.docs s.fresh).1) with
      | error e =>
        right
        exact ⟨r.document, (collectOneToOne r.field s.docs s.fresh).1, rfl⟩
      | ok related =>
        right
        exact ⟨r.document, (collectOneToOne r.field s.docs s.fresh).1, rfl⟩
    · rw [if_neg hlen]
      left
      exact ⟨rfl, rfl, rfl⟩
  · simp only [runCall, runOneToManyCall]
    by_cases hlen : (jsUniq (collectOneToMany r.field s.docs)).length > 0
    · rw [if_pos hlen]
      cases hf : fetchWhereIn st r.document
          (jsUniq (collectOneToMany r.field s.docs)) with
      | error e =>
        right
        exact ⟨r.document, collectOneToMany r.field s.docs, rfl⟩
      | ok related =>
        right
        exact ⟨r.document, collectOneToMany r.field s.docs, rfl⟩
    · rw [if_neg hlen]
      left
      exact ⟨rfl, rfl, rfl⟩

theorem foldl_merge_props (st : Store) :
    ∀ (cs : List (Bool × Rel)) (s : MergeState),
      s.log.length ≤ (cs.foldl (fun s c => runCall st c s) s).log.length ∧
      (cs.foldl (fun s c => runCall st c s) s).log.length ≤ s.log.length + cs.length ∧
      (∀ q ∈ (cs.foldl (fun s c => runCall st c s) s).log,
        q ∈ s.log ∨ ∃ ids0, q.ids = jsUniq ids0) ∧
      ((cs.foldl (fun s c => runCall st c s) s).log = s.log →
        (cs.foldl (fun s c => runCall st c s) s).docs = s.docs ∧
        (cs.foldl (fun s c => runCall st c s) s).firstErr = s.firstErr) := by
  intro cs
  induction cs with
  | nil =>
    intro s
    exact ⟨Nat.le_refl _, by simp, fun q hq => Or.inl hq, fun _ => ⟨rfl, rfl⟩⟩
  | cons c cs ih =>
    intro s
    simp only [List.foldl_cons, List.length_cons]
    obtain ⟨ih1, ih2, ih3, ih4⟩ := ih (runCall st c s)
    rcases runCall_log_cases st c s with ⟨hl, hd, he⟩ | ⟨doc, ids0, hl⟩
    · refine ⟨?_, ?_, ?_, ?_⟩
      · calc s.log.length = (runCall st c s).log.length := by rw [hl]
          _ ≤ _ := ih1
      · calc (cs.foldl (fun s c => runCall st c s) (runCall st c s)).log.length
            ≤ (runCall st c s).log.length + cs.length := ih2
          _ = s.log.length + cs.length := by rw [hl]
          _ ≤ s.log.length + (cs.length + 1) := by omega
      · intro q hq
        rcases ih3 q hq with hq2 | hq2
        · left; rwa [hl] at hq2
        · right; exact hq2
      · intro hlog
        obtain ⟨hd2, he2⟩ := ih4 (by rw [hl]; exact hlog)
        exact ⟨by rw [hd2, hd], by rw [he2, he]⟩
    · refine ⟨?_, ?_, ?_, ?_⟩
      · calc s.log.length
            ≤ (s.log ++ [QueryCall.mk doc (jsUniq ids0)]).length := by simp
          _ = (runCall st c s).log.length := by rw [hl]
          _ ≤ _ := ih1
      · calc (cs.foldl (fun s c => runCall st c s) (runCall st c s)).log.length
            ≤ (runCall st c s).log.length + cs.length := ih2
          _ = s.log.length + 1 + cs.length := by rw [hl]; simp
          _ ≤ s.log.length + (cs.length + 1) := by omega
      · intro q hq
        rcases ih3 q hq with hq2 | hq2
        · rw [hl] at hq2
          rcases List.mem_append.mp hq2 with h3 | h3
          · left; exact h3
          · right
            refine ⟨ids0, ?_⟩
            have : q = ⟨doc, jsUniq ids0⟩ := List.mem_singleton.mp h3
            rw [this]
        · right; exact hq2
      · intro hlog
        exfalso
        have h1 : (runCall st c s).log.length
            ≤ (cs.foldl (fun s c => runCall st c s) (runCall st c s)).log.length := ih1
        rw [hl, hlog] at h1
        simp at h1

/-- C8: for every query executed with the count-flag set, the total matching
row count attached to the result equals the number of all documents matching
the filter, computed ignoring the query's skip and limit, and is independent
of the page of rows returned; with the count-flag unset, no count round trip
occurs. -/
theorem C8_count_flag (rows : List Nat) (crit : Nat → Bool)
    (sortFn : List Nat → List Nat) (q : QueryShape) :
    (q.countFoundRows = true →
      (findByQuery rows crit sortFn q).1.totalRows = some (rows.filter crit).length ∧
      (findByQuery rows crit sortFn q).2 = 1 ∧
      ∀ s l, (findByQuery rows crit sortFn { q with skip := s, limit := l }).1.totalRows
        = some (rows.filter crit).length) ∧
    (q.countFoundRows = false →
      (findByQuery rows crit sortFn q).1.totalRows = none ∧
      (findByQuery rows crit sortFn q).2 = 0) := by
  constructor
  · intro h
    refine ⟨?_, ?_, ?_⟩ <;> simp [findByQuery, h]
  · intro h
    constructor <;> simp [findByQuery, h]

/-- C8 witness: the count-flag query over rows `[0,1,2,3,4]` matching even
rows with skip 1, limit 2 reports the full count 3. -/
theorem C8_count_flag_witness :
    (findByQuery [0, 1, 2, 3, 4] (fun n => n % 2 == 0) id
      ⟨false, some 1, some 2, true⟩).1.totalRows = some 3 :=
  ((C8_count_flag [0, 1, 2, 3, 4] (fun n => n % 2 == 0) id
    ⟨false, some 1, some 2, true⟩).1 rfl).1

/-- C9: a condition value that is an opaque-identifier object translates to
a direct equality, unchanged; the structured-versus-opaque classification
reads only the value's constructor-name tag, never the value's own fields;
and in the full translation an opaque-identifier condition stays a direct
equality. -/
theorem C9_opaque_identifier_equality :
    (∀ (ctor : String) (fs : List (String × Prim)),
      ctor = "ObjectID" ∨ ctor = "ObjectId" →
      convertCondition (.vObj ctor fs) = .eqVal (.vObj ctor fs)) ∧
    (∀ (ctor : String) (fs fs2 : List (String × Prim)),
      isStructuredCondition (.vObj ctor fs) = isStructuredCondition (.vObj ctor fs2)) ∧
    (∀ (conds : List (String × CondVal)) (field : String) (v : CondVal),
      (field, v) ∈ conds → isStructuredCondition v = false →
      (field, CritVal.eqVal v) ∈ convertQueryToCriteria conds) := by
  refine ⟨?_, ?_, ?_⟩
  · rintro ctor fs (rfl | rfl) <;> simp [convertCondition, isStructuredCondition,
      jsTypeof, ctorNameOf]
  · intro ctor fs fs2
    simp [isStructuredCondition, jsTypeof, ctorNameOf]
  · intro conds field v hmem hcls
    have : convertCondition v = .eqVal v := by
      simp [convertCondition, hcls]
    have hmap : (field, convertCondition v) ∈ convertQueryToCriteria conds := by
      simpa [convertQueryToCriteria] using List.mem_map_of_mem (fun fc => (fc.1, convertCondition fc.2)) hmem
    simpa [this] using hmap

/-- C9 witness: the condition `age = ObjectID-instance` translates to a
direct equality. -/
theorem C9_opaque_identifier_equality_witness :
    convertCondition (.vObj "ObjectID" [("id", .pstr "507f")])
      = .eqVal (.vObj "ObjectID" [("id", .pstr "507f")]) :=
  C9_opaque_identifier_equality.1 "ObjectID" [("id", .pstr "507f")] (Or.inl rfl)

/-- C10: the current `update` replaces the payload by `Object.create(data)`,
so `delete data[idFieldName]` removes nothing — the identifier remains
reachable on the `$set` payload through the prototype chain (and the payload
has no own properties at all), while the legacy `update` does delete it. -/
theorem C10_update_id_not_removed :
    (updateSetPayloadModern "_id" d10).getProp "_id" = some "507f1f77bcf86cd799439011" ∧
    (updateSetPayloadModern "_id" d10).own = [] ∧
    (updateSetPayloadLegacy "_id" d10).getProp "_id" = none := by
  decide

/-- C5 counterexample: two configurations differing only in the port, and
two differing only in the client option `w`, produce the same fingerprint
(the fingerprint concatenates `config.part`, not `config.port`, and only the
server option keys). -/
theorem C5_counterexample :
    connectionHash cfgC = connectionHash cfgDifferentPort ∧
    cfgC.port ≠ cfgDifferentPort.port ∧
    connectionHash cfgC = connectionHash cfgDifferentW ∧
    cfgC.w ≠ cfgDifferentW.w := by
  decide

/-- C5 amended: the fingerprint is composed of the normalized host, the
(normally absent) `part` property, the pool name, and the server-option
`key:value` pairs in their declaration order; it is invariant under changes
to the port, the database, and every client option, while host, pool name
and server options do distinguish pool entries. -/
theorem C5_amended :
    (∀ (c : MongoConfig) (p db rp sk hv wv : String),
      connectionHash { c with port := p, database := db,
                              readPreference := some rp, slaveOk := some sk,
                              ha := some hv, w := some wv } = connectionHash c) ∧
    connectionHash cfgC ≠ connectionHash cfgDifferentHost ∧
    connectionHash cfgC ≠ connectionHash cfgDifferentPool ∧
    connectionHash cfgC ≠ connectionHash cfgDifferentPoolSize := by
  refine ⟨?_, by decide, by decide, by decide⟩
  intro c p db rp sk hv wv
  by_cases h : c.host = "localhost" <;>
    simp [connectionHash, normalizeHost, poolNameFragment, parseConfigOptions,
      serverOptionKeys, MongoConfig.getKey, h]

/-- C2 counterexample: two concurrent `factory` callers with the same
configuration whose underlying open fails do not receive the same outcome —
the initializer receives the error while the queued waiter receives a
connection handle built from the failed client. -/
theorem C2_counterexample :
    poolTwoFail.openCalls = 1 ∧
    poolTwoFail.outcomes.lookup 1 = some (.err "open failed") ∧
    poolTwoFail.outcomes.lookup 2 = some (.ok 0 "d") ∧
    poolTwoFail.outcomes.lookup 1 ≠ poolTwoFail.outcomes.lookup 2 := by
  decide

/-- C2 amended: two concurrent `factory` callers with the same configuration
trigger exactly one underlying open call; on success both receive a handle
to the same underlying client; on failure only the initializer receives the
error — the queued waiter instead receives a handle built from the failed
client. -/
theorem C2_amended (c : MongoConfig) :
    (runPool c false 10 (initialPool [1, 2])).openCalls = 1 ∧
    (runPool c true 10 (initialPool [1, 2])).openCalls = 1 ∧
    (runPool c false 10 (initialPool [1, 2])).outcomes
      = [(1, .ok 0 c.database), (2, .ok 0 c.database)] ∧
    (runPool c true 10 (initialPool [1, 2])).outcomes
      = [(1, .err "open failed"), (2, .ok 0 c.database)] := by
  refine ⟨?_, ?_, ?_, ?_⟩ <;>
    simp [runPool, pstep, initialPool, beginAsync, endAsync, List.lookup]

/-- C4 counterexample: after a failed open, the pool entry survives, the
queued waiter receives a success handle rather than the error, and a later
caller with the same fingerprint receives a handle without any fresh open
attempt (the open-call count stays at one). -/
theorem C4_counterexample :
    poolLater.openCalls = 1 ∧
    poolLater.mongoClients = [(connectionHash cfgC, 0)] ∧
    poolLater.outcomes.lookup 2 = some (.ok 0 "d") ∧
    poolLater.outcomes.lookup 3 = some (.ok 0 "d") := by
  decide

/-- C4 amended: when the open for a fingerprint fails, the error reaches
only the initiating caller; the pool entry (the failed client) is kept, the
queued waiter and every later caller with the same fingerprint receive a
connection handle built from that client, and no fresh open attempt is
made. -/
theorem C4_amended (c : MongoConfig) :
    (runPool c true 10 (initialPool [1, 2])).outcomes
      = [(1, .err "open failed"), (2, .ok 0 c.database)] ∧
    (runPool c true 10
      { runPool c true 10 (initialPool [1, 2]) with queue := [PTask.start 3] }).openCalls = 1 ∧
    (runPool c true 10
      { runPool c true 10 (initialPool [1, 2]) with queue := [PTask.start 3] }).mongoClients
      = [(connectionHash c, 0)] ∧
    (runPool c true 10
      { runPool c true 10 (initialPool [1, 2]) with queue := [PTask.start 3] }).outcomes
      = [(1, .err "open failed"), (2, .ok 0 c.database), (3, .ok 0 c.database)] := by
  refine ⟨?_, ?_, ?_, ?_⟩ <;>
    simp [runPool, pstep, initialPool, beginAsync, endAsync, List.lookup]

theorem oneToOneFetched_ok (st : Store) (r : Rel) (docs : List SDoc)
    (hok : st.failing.contains r.document = false) :
    oneToOneFetched st r docs =
      (st.collectionOf r.document).filter fun d2 =>
        (jsUniq (collectOneToOne r.field docs 0).1).any fun v =>
          toPropertyKey v == d2.id := by
  rw [oneToOneFetched, fetchWhereIn_ok st r.document _ hok]
  rfl

theorem runOneToManyCall_init_ok (st : Store) (r : Rel) (docs : List SDoc)
    (hNe : jsUniq (collectOneToMany r.field docs) ≠ [])
    (hok : st.failing.contains r.document = false) :
    runOneToManyCall st r ⟨docs, 0, [], none⟩ =
      ⟨docs.map fun d => d.setSlot r.field (.hydList (rewriteList
          (oneToManyDocMap st r docs) (d.getList r.field))),
        0, [⟨r.document, jsUniq (collectOneToMany r.field docs)⟩], none⟩ := by
  rw [runOneToManyCall_ok st r ⟨docs, 0, [], none⟩ hNe hok]
  rw [oneToManyDocMap, oneToManyFetched_ok st r docs hok]
  exact rfl

theorem runOneToOneCall_init_ok (st : Store) (r : Rel) (docs : List SDoc)
    (hNe : jsUniq (collectOneToOne r.field docs 0).1 ≠ [])
    (hok : st.failing.contains r.document = false) :
    runOneToOneCall st r ⟨docs, 0, [], none⟩ =
      ⟨docs.map fun d => d.setSlot r.field (.hyd
          ((oneToOneDocMap st r docs).lookup (toPropertyKey (d.get1 r.field)))),
        (collectOneToOne r.field docs 0).2,
        [⟨r.document, jsUniq (collectOneToOne r.field docs 0).1⟩], none⟩ := by
  rw [runOneToOneCall_ok st r ⟨docs, 0, [], none⟩ hNe hok]
  rw [oneToOneDocMap, oneToOneFetched_ok st r docs hok]
  exact rfl

/-- C1 counterexample: a batch of two documents referencing the same
24-hex-character foreign id issues its single lookup with BOTH `ObjectID`
wrappers still in the batch — `_.uniq` compares the freshly constructed
`ObjectID` instances by object identity, so equal foreign ids are not
merged: the issued id list names the same foreign id twice. -/
theorem C1_counterexample :
    (mergeInRelations stC1 mdC1 docsC1).log.map (fun q => q.ids.map toPropertyKey)
      = [[hC1, hC1]] ∧
    ¬ ([hC1, hC1] : List String).Nodup := by
  exact ⟨rfl, by decide⟩

/-- C1 amended: per `resolve()` call at most one batched lookup is issued
per declared relation field — the log length is bounded by the number of
relation declarations, independently of the batch size; every issued id
batch is deduplicated exactly up to JS strict equality (raw ids by value,
`ObjectID` instances by object identity, so value-equal wrapped ids may
repeat); and when no lookup is issued at all the batch is returned untouched
and the call succeeds. -/
theorem C1_amended (st : Store) (md : Meta) (docs : List SDoc) :
    (mergeInRelations st md docs).log.length
      ≤ md.oneToOne.length + md.oneToMany.length ∧
    (∀ q ∈ (mergeInRelations st md docs).log,
      List.Pairwise (fun a b => jsEq a b = false) q.ids) ∧
    ((mergeInRelations st md docs).log = [] →
      (mergeInRelations st md docs).outcome = .ok docs ∧
      (mergeInRelations st md docs).finalDocs = docs) := by
  obtain ⟨h1, h2, h3, h4⟩ :=
    foldl_merge_props st (callsOf md) ⟨docs, 0, [], none⟩
  refine ⟨?_, ?_, ?_⟩
  · calc (mergeInRelations st md docs).log.length
        ≤ (⟨docs, 0, [], none⟩ : MergeState).log.length + (callsOf md).length := h2
      _ = md.oneToOne.length + md.oneToMany.length := by simp [callsOf]
  · intro q hq
    rcases h3 q hq with h | ⟨ids0, hids⟩
    · exact absurd h (List.not_mem_nil q)
    · rw [hids]
      exact jsUniq_pairwise ids0
  · intro hlog
    obtain ⟨hd, he⟩ := h4 hlog
    constructor
    · show (match ((callsOf md).foldl (fun s c => runCall st c s)
          ⟨docs, 0, [], none⟩).firstErr with
        | some e => Except.error e
        | none => Except.ok ((callsOf md).foldl (fun s c => runCall st c s)
            ⟨docs, 0, [], none⟩).docs) = Except.ok docs
      rw [show ((callsOf md).foldl (fun s c => runCall st c s)
          ⟨docs, 0, [], none⟩).firstErr = none from he]
      rw [show ((callsOf md).foldl (fun s c => runCall st c s)
          ⟨docs, 0, [], none⟩).docs = docs from hd]
    · exact hd

/-- C1 amended witness: with no declared relations the batch is returned
untouched and the call succeeds. -/
theorem C1_amended_witness :
    (mergeInRelations stC1 ⟨[], []⟩ docsC1).outcome = Except.ok docsC1 ∧
    (mergeInRelations stC1 ⟨[], []⟩ docsC1).finalDocs = docsC1 :=
  (C1_amended stC1 ⟨[], []⟩ docsC1).2.2 rfl

/-- C3: for a list-reference field, a successful hydration rewrites every
source document's list to the pointwise image of its own original id list
under the batch-wide lookup table — the `j`-th hydrated element corresponds
to the `j`-th original id, so the original per-document order is
preserved. -/
theorem C3_list_order (st : Store) (r : Rel) (docs : List SDoc) (i : Nat)
    (ids : List JVal) (hi : i < docs.length)
    (hslot : (docs.get ⟨i, hi⟩).getSlot r.field = some (.rawList ids))
    (hne : ids ≠ [])
    (hok : st.failing.contains r.document = false) :
    (mergeInRelations st ⟨[], [r]⟩ docs).outcome
      = .ok (mergeInRelations st ⟨[], [r]⟩ docs).finalDocs ∧
    ∃ hlen : i < (mergeInRelations st ⟨[], [r]⟩ docs).finalDocs.length,
      ((mergeInRelations st ⟨[], [r]⟩ docs).finalDocs.get ⟨i, hlen⟩).getSlot r.field
        = some (.hydList (ids.map fun v =>
            (oneToManyDocMap st r docs).lookup (toPropertyKey v))) := by
  have hlist : (docs.get ⟨i, hi⟩).getList r.field = ids := by
    rw [SDoc.getList]
    rw [show (docs.get ⟨i, hi⟩).fields.lookup r.field = some (.rawList ids) from hslot]
  have hmem : ids ∈ docs.map (fun d => d.getList r.field) := by
    rw [← hlist]
    exact List.mem_map_of_mem _ (List.get_mem docs i hi)
  rw [List.get_eq_getElem] at hlist
  have hcolNe : collectOneToMany r.field docs ≠ [] := by
    rw [collectOneToMany_eq]
    obtain ⟨x, hx⟩ := List.exists_mem_of_ne_nil ids hne
    exact List.ne_nil_of_mem (List.mem_flatten.mpr ⟨ids, hmem, hx⟩)
  have hNe : jsUniq (collectOneToMany r.field docs) ≠ [] := jsUniq_ne_nil _ hcolNe
  rw [mergeInRelations_single_many, runOneToManyCall_init_ok st r docs hNe hok]
  refine ⟨rfl, by simpa using hi, ?_⟩
  simp only [List.get_eq_getElem, List.getElem_map]
  rw [getSlot_setSlot_self, hlist, rewriteList_eq_map]

/-- C3 witness: the batch whose single document lists `i2`, the dangling
`i9`, then `i1` hydrates, in that order, to Item 2, an absent value, and
Item 1. -/
theorem C3_list_order_witness :
    (mergeInRelations stM ⟨[], [relM]⟩ docsM).outcome
      = .ok (mergeInRelations stM ⟨[], [relM]⟩ docsM).finalDocs ∧
    ∃ hlen : 0 < (mergeInRelations stM ⟨[], [relM]⟩ docsM).finalDocs.length,
      ((mergeInRelations stM ⟨[], [relM]⟩ docsM).finalDocs.get ⟨0, hlen⟩).getSlot relM.field
        = some (.hydList (([.str "i2", .str "i9", .str "i1"] : List JVal).map fun v =>
            (oneToManyDocMap stM relM docsM).lookup (toPropertyKey v))) :=
  C3_list_order stM relM docsM 0 [.str "i2", .str "i9", .str "i1"]
    (by decide) (by decide) (by decide) (by decide)

/-- C6 counterexample: with a live `A` fetch and a failing `B` fetch, the
final callback receives the `B` error, but the already-completed `A` batch
has hydrated the shared documents in place — the caller's batch is left
partially hydrated (`a` hydrated, `b` raw), not discarded. -/
theorem C6_counterexample :
    (mergeInRelations stC6 mdC6 docsC6).outcome = Except.error "fetch failed: B" ∧
    (mergeInRelations stC6 mdC6 docsC6).finalDocs ≠ docsC6 ∧
    ((mergeInRelations stC6 mdC6 docsC6).finalDocs.head?.bind
      (fun d => d.getSlot "a")) = some (SVal.hyd (some ⟨"a1", 1⟩)) ∧
    ((mergeInRelations stC6 mdC6 docsC6).finalDocs.head?.bind
      (fun d => d.getSlot "b")) = some (SVal.raw (.str "b1")) := by
  refine ⟨rfl, by decide, rfl, rfl⟩

/-- C6 amended: when one of two sibling one-to-one fetches fails, the final
callback receives that error (and no data argument), but the in-place
mutations of the already-completed sibling persist on the caller's shared
batch: the final batch state equals the result of the successful sibling's
hydration alone. -/
theorem C6_amended (st : Store) (r1 r2 : Rel) (docs : List SDoc)
    (h1 : st.failing.contains r1.document = false)
    (h2 : st.failing.contains r2.document = true)
    (hne : docs ≠ []) :
    (mergeInRelations st ⟨[r1, r2], []⟩ docs).outcome
      = Except.error ("fetch failed: " ++ r2.document) ∧
    (mergeInRelations st ⟨[r1, r2], []⟩ docs).finalDocs
      = (runOneToOneCall st r1 ⟨docs, 0, [], none⟩).docs := by
  have hs1err : (runOneToOneCall st r1 ⟨docs, 0, [], none⟩).firstErr = none :=
    runOneToOneCall_firstErr_ok st r1 ⟨docs, 0, [], none⟩ h1
  have hs1ne : (runOneToOneCall st r1 ⟨docs, 0, [], none⟩).docs ≠ [] := by
    apply List.length_pos.mp
    rw [runOneToOneCall_docs_length]
    exact List.length_pos.mpr hne
  obtain ⟨he, hd⟩ :=
    runOneToOneCall_err st r2 (runOneToOneCall st r1 ⟨docs, 0, [], none⟩) h2 hs1ne
  rw [mergeInRelations_two_one]
  constructor
  · show (match (runOneToOneCall st r2
        (runOneToOneCall st r1 ⟨docs, 0, [], none⟩)).firstErr with
      | some e => Except.error e
      | none => Except.ok (runOneToOneCall st r2
          (runOneToOneCall st r1 ⟨docs, 0, [], none⟩)).docs)
      = Except.error ("fetch failed: " ++ r2.document)
    rw [he, hs1err]
    rfl
  · exact hd

/-- C6 amended witness: the concrete two-relation scenario, with `A` live
and `B` failing. -/
theorem C6_amended_witness :
    (mergeInRelations stC6 ⟨[⟨"a", "A"⟩, ⟨"b", "B"⟩], []⟩ docsC6).outcome
      = Except.error ("fetch failed: " ++ "B") ∧
    (mergeInRelations stC6 ⟨[⟨"a", "A"⟩, ⟨"b", "B"⟩], []⟩ docsC6).finalDocs
      = (runOneToOneCall stC6 ⟨"a", "A"⟩ ⟨docsC6, 0, [], none⟩).docs :=
  C6_amended stC6 ⟨"a", "A"⟩ ⟨"b", "B"⟩ docsC6 (by decide) (by decide) (by decide)

/-- C7: a dangling reference is not an error.  For a single-reference field
whose foreign id has no match in the target collection, hydration sets the
field to an absent value and the merge succeeds; for a list-reference field,
the element corresponding to the dangling id becomes an absent value and the
merge succeeds. -/
theorem C7_dangling_reference :
    (∀ (st : Store) (r : Rel) (docs : List SDoc) (i : Nat) (v : JVal)
      (hi : i < docs.length),
      (docs.get ⟨i, hi⟩).getSlot r.field = some (.raw v) →
      st.failing.contains r.document = false →
      (∀ d2 ∈ st.collectionOf r.document, (d2.id == toPropertyKey v) = false) →
      (mergeInRelations st ⟨[r], []⟩ docs).outcome
        = .ok (mergeInRelations st ⟨[r], []⟩ docs).finalDocs ∧
      ∃ hlen : i < (mergeInRelations st ⟨[r], []⟩ docs).finalDocs.length,
        ((mergeInRelations st ⟨[r], []⟩ docs).finalDocs.get ⟨i, hlen⟩).getSlot r.field
          = some (.hyd none)) ∧
    (∀ (st : Store) (r : Rel) (docs : List SDoc) (i j : Nat) (ids : List JVal)
      (hi : i < docs.length) (hj : j < ids.length),
      (docs.get ⟨i, hi⟩).getSlot r.field = some (.rawList ids) →
      st.failing.contains r.document = false →
      (∀ d2 ∈ st.collectionOf r.document,
        (d2.id == toPropertyKey (ids.get ⟨j, hj⟩)) = false) →
      (mergeInRelations st ⟨[], [r]⟩ docs).outcome
        = .ok (mergeInRelations st ⟨[], [r]⟩ docs).finalDocs ∧
      ∃ hlen : i < (mergeInRelations st ⟨[], [r]⟩ docs).finalDocs.length,
        ∃ hs, ((mergeInRelations st ⟨[], [r]⟩ docs).finalDocs.get ⟨i, hlen⟩).getSlot
            r.field = some (.hydList hs) ∧
          hs.get? j = some none) := by
  constructor
  · intro st r docs i v hi hslot hok hdangle
    have hdne : docs ≠ [] :=
      List.length_pos.mp (Nat.lt_of_le_of_lt (Nat.zero_le i) hi)
    have hNe : jsUniq (collectOneToOne r.field docs 0).1 ≠ [] :=
      jsUniq_ne_nil _ (collectOneToOne_fst_ne_nil r.field docs 0 hdne)
    have hv : (docs.get ⟨i, hi⟩).get1 r.field = v := by
      rw [SDoc.get1]
      rw [show (docs.get ⟨i, hi⟩).fields.lookup r.field = some (.raw v) from hslot]
    rw [List.get_eq_getElem] at hv
    rw [mergeInRelations_single_one, runOneToOneCall_init_ok st r docs hNe hok]
    refine ⟨rfl, by simpa using hi, ?_⟩
    simp only [List.get_eq_getElem, List.getElem_map]
    rw [getSlot_setSlot_self]
    rw [hv]
    have hnone : (oneToOneDocMap st r docs).lookup (toPropertyKey v) = none := by
      rw [oneToOneDocMap, oneToOneFetched_ok st r docs hok]
      apply buildDocMap_lookup_none
      intro d2 hd2
      exact hdangle d2 (List.mem_of_mem_filter hd2)
    rw [hnone]
  · intro st r docs i j ids hi hj hslot hok hdangle
    have hne : ids ≠ [] :=
      List.length_pos.mp (Nat.lt_of_le_of_lt (Nat.zero_le j) hj)
    obtain ⟨hout, hlen, hget⟩ := C3_list_order st r docs i ids hi hslot hne hok
    refine ⟨hout, hlen, ids.map fun v =>
      (oneToManyDocMap st r docs).lookup (toPropertyKey v), hget, ?_⟩
    have hnone : (oneToManyDocMap st r docs).lookup
        (toPropertyKey (ids.get ⟨j, hj⟩)) = none := by
      rw [oneToManyDocMap, oneToManyFetched_ok st r docs hok]
      apply buildDocMap_lookup_none
      intro d2 hd2
      exact hdangle d2 (List.mem_of_mem_filter hd2)
    rw [List.get?_map, List.get?_eq_get hj, Option.map_some', hnone]

/-- C7 witness: the dangling one-to-one reference `C9` hydrates to an absent
value, and the dangling list element `i9` hydrates to an absent element at
its original position; both merges succeed. -/
theorem C7_dangling_reference_witness :
    ((mergeInRelations stD ⟨[relD], []⟩ docsD).outcome
        = .ok (mergeInRelations stD ⟨[relD], []⟩ docsD).finalDocs ∧
      ∃ hlen : 0 < (mergeInRelations stD ⟨[relD], []⟩ docsD).finalDocs.length,
        ((mergeInRelations stD ⟨[relD], []⟩ docsD).finalDocs.get ⟨0, hlen⟩).getSlot
          relD.field = some (.hyd none)) ∧
    ((mergeInRelations stM ⟨[], [relM]⟩ docsM).outcome
        = .ok (mergeInRelations stM ⟨[], [relM]⟩ docsM).finalDocs ∧
      ∃ hlen : 0 < (mergeInRelations stM ⟨[], [relM]⟩ docsM).finalDocs.length,
        ∃ hs, ((mergeInRelations stM ⟨[], [relM]⟩ docsM).finalDocs.get
            ⟨0, hlen⟩).getSlot relM.field = some (.hydList hs) ∧
          hs.get? 1 = some none) :=
  ⟨C7_dangling_reference.1 stD relD docsD 0 (.str "C9") (by decide) (by decide)
      (by decide) (by decide),
    C7_dangling_reference.2 stM relM docsM 0 1 [.str "i2", .str "i9", .str "i1"]
      (by decide) (by decide) (by decide) (by decide) (by decide)⟩

end BassMongo
